import Mathlib

/-!
Verification of the plotting helper modules plot_basis2d.py and plot_vec3d.py.

The field cross-section sampler (plot_cross_sec, plot_facet_vals, plot_nodal_vals)
is embedded over the rationals: the numpy float arrays become lists of rationals,
machine epsilon becomes the exact rational 2^-52, and the probing operator of the
external basis object is an abstract function from point lists to matrices
(lists of rows).  Each sampling operation returns, besides its numeric outputs,
the list of points it handed to the probing operator and the coefficient array
as it stands after the operation (for the frame condition).

The vector and plane drawing helpers (plot_vec, plot_plane, plot_coeffs) are
embedded over the reals, with the Euclidean norm written via Real.sqrt exactly
as scipy.linalg.norm computes it.  Draw calls are reified: plot_vec returns the
segment it would draw, plot_coeffs the list of its four plot_vec calls, and the
plane helper exposes its internally constructed quantities (the Gram-Schmidt
basis, the two parameter axes and the meshgrid).  Divisions of plot_plane are
guarded in an Option-valued variant that returns none exactly when a divisor of
the source is zero, modelling the numeric fault propagating to the caller.
-/

namespace Plot

/-- numpy.linspace with endpoint=True: n evenly spaced values from a to b,
the i-th being a + (b - a) * i / (n - 1).  The source always uses the default
n = 50. -/
def linspace {K : Type} [DivisionRing K] (a b : K) (n : ℕ) : List K :=
  (List.range n).map (fun i : ℕ => a + (b - a) * (i : K) / ((n : K) - 1))

/-- The mesh as read by this core: node coordinates mesh.p (the columns of the
2 x n_nodes array, one pair per node) and facet connectivity mesh.facets.T
(one pair of node indices per facet). -/
structure Mesh where
  p : List (ℚ × ℚ)
  facets : List (ℕ × ℕ)

/-- The external basis object: a mesh together with the probing capability
basis.probes, which maps a list of sample points to a matrix (list of rows,
one row per point) acting on coefficient vectors. -/
structure Basis where
  mesh : Mesh
  probes : List (ℚ × ℚ) → List (List ℚ)

/-- Dot product of a matrix row with the coefficient vector. -/
def dotQ (r u : List ℚ) : ℚ := (List.zipWith (fun a b => a * b) r u).sum

/-- Matrix-vector product probe @ u, one entry per matrix row. -/
def matvec (m : List (List ℚ)) (u : List ℚ) : List ℚ := m.map (fun r => dotQ r u)

/-- eps = np.finfo(float).eps, the machine epsilon of binary64, exactly 2^-52. -/
def eps : ℚ := 1 / 2 ^ 52

/-- Everything plot_cross_sec computes: the parameter values ts, the nudged
sample coordinates xs and ys, the sampled field values zs, the point list
handed to basis.probes, and the coefficient array as left after the call. -/
structure CrossSecResult where
  ts : List ℚ
  xs : List ℚ
  ys : List ℚ
  zs : List ℚ
  probedPoints : List (ℚ × ℚ)
  uFinal : List ℚ

/-- plot_cross_sec(u, ps, basis) from plot_basis2d.py.  The 2 x 2 array ps
holds the two segment endpoints as its columns: pA = (ps[0,0], ps[1,0]) and
pB = (ps[0,1], ps[1,1]).  Line by line: ts = linspace(0, 1); linear
interpolation of xs and ys between the endpoints; midpoint = sum of the node
coordinates divided by 3; s = 10 * eps; both xs and ys are nudged toward
midpoint[0], the x-component; probe = basis.probes(stack(xs, ys));
zs = probe @ u. -/
def plot_cross_sec (u : List ℚ) (pA pB : ℚ × ℚ) (basis : Basis) : CrossSecResult :=
  let mesh := basis.mesh
  let ts := linspace (0 : ℚ) 1 50
  let xs := ts.map (fun t => (1 - t) * pA.1 + t * pB.1)
  let ys := ts.map (fun t => (1 - t) * pA.2 + t * pB.2)
  let mid : ℚ × ℚ := ((mesh.p.map Prod.fst).sum / 3, (mesh.p.map Prod.snd).sum / 3)
  let s := 10 * eps
  let xs2 := xs.map (fun a => (1 - s) * a + s * mid.1)
  let ys2 := ys.map (fun a => (1 - s) * a + s * mid.1)
  let pts := xs2.zip ys2
  let probe := basis.probes pts
  let zs := matvec probe u
  ⟨ts, xs2, ys2, zs, pts, u⟩

/-- plot_facet_vals(u, basis) from plot_basis2d.py: one plot_cross_sec call per
entry of basis.mesh.facets.T, in order, with the endpoint columns
basis.mesh.p[:, facet].  Node indices are looked up with a default that is
never reached on well-formed meshes. -/
def plot_facet_vals (u : List ℚ) (basis : Basis) : List CrossSecResult :=
  basis.mesh.facets.map (fun f =>
    plot_cross_sec u (basis.mesh.p.getD f.1 (0, 0)) (basis.mesh.p.getD f.2 (0, 0)) basis)

/-- Everything plot_nodal_vals computes: coordinates, sampled values, the point
list handed to basis.probes, and the coefficient array as left after the call. -/
structure NodalResult where
  xs : List ℚ
  ys : List ℚ
  zs : List ℚ
  probedPoints : List (ℚ × ℚ)
  uFinal : List ℚ

/-- plot_nodal_vals(u, basis) from plot_basis2d.py: probe = basis.probes(mesh.p)
at the raw node coordinates, zs = probe @ u, xs and ys the two coordinate rows
of mesh.p. -/
def plot_nodal_vals (u : List ℚ) (basis : Basis) : NodalResult :=
  let mesh := basis.mesh
  let probe := basis.probes mesh.p
  let zs := matvec probe u
  let xs := mesh.p.map Prod.fst
  let ys := mesh.p.map Prod.snd
  ⟨xs, ys, zs, mesh.p, u⟩

/-- Claim C1 reads the nudge target as the mean of all node coordinates; this
is that reading, for the x-component the claim says is reused for both axes. -/
def specC1_centroid_x (m : Mesh) : ℚ := (m.p.map Prod.fst).sum / m.p.length

/-- A four-node mesh on which sum-of-coordinates / 3 is not the coordinate mean. -/
def mesh4 : Mesh := ⟨[(0, 0), (3, 0), (0, 3), (3, 3)], []⟩

/-- A basis over mesh4 with an arbitrary probing operator. -/
def basis4 : Basis := ⟨mesh4, fun q => q.map (fun _ => [])⟩

/-- The reference-triangle mesh of init_refdom with its one listed facet. -/
def mesh3 : Mesh := ⟨[(0, 0), (1, 0), (0, 1)], [(0, 1)]⟩

/-- A basis over mesh3 whose probing operator returns one (empty) row per
point, as the real probing operator returns one row per sample point. -/
def basisW : Basis := ⟨mesh3, fun q => q.map (fun _ => [])⟩

/-- A numpy 3-vector of plot_vec3d.py, over the reals. -/
@[ext]
structure Vec3 where
  x : ℝ
  y : ℝ
  z : ℝ

instance : Zero Vec3 := ⟨⟨0, 0, 0⟩⟩

instance : Add Vec3 := ⟨fun a b => ⟨a.x + b.x, a.y + b.y, a.z + b.z⟩⟩

instance : Neg Vec3 := ⟨fun a => ⟨-a.x, -a.y, -a.z⟩⟩

instance : SMul ℝ Vec3 := ⟨fun c a => ⟨c * a.x, c * a.y, c * a.z⟩⟩

instance : AddCommGroup Vec3 where
  add_assoc a b c := Vec3.ext (add_assoc _ _ _) (add_assoc _ _ _) (add_assoc _ _ _)
  zero_add a := Vec3.ext (zero_add _) (zero_add _) (zero_add _)
  add_zero a := Vec3.ext (add_zero _) (add_zero _) (add_zero _)
  add_comm a b := Vec3.ext (add_comm _ _) (add_comm _ _) (add_comm _ _)
  neg_add_cancel a := Vec3.ext (neg_add_cancel _) (neg_add_cancel _) (neg_add_cancel _)
  nsmul := nsmulRec
  zsmul := zsmulRec

/-- np.dot for 3-vectors. -/
def dot (a b : Vec3) : ℝ := a.x * b.x + a.y * b.y + a.z * b.z

/-- scipy.linalg.norm: the Euclidean norm, the square root of np.dot(v, v). -/
noncomputable def norm (v : Vec3) : ℝ := Real.sqrt (dot v v)

/-- Line 1 of plot_plane: v1 = v / la.norm(v), i.e. the inverse norm scaling. -/
noncomputable def plot_plane_v1 (v : Vec3) : Vec3 := (norm v)⁻¹ • v

/-- Line 2 of plot_plane: v2 = w - np.dot(w, v1) * v1, before renormalization. -/
noncomputable def plot_plane_v2pre (v w : Vec3) : Vec3 :=
  w - dot w (plot_plane_v1 v) • plot_plane_v1 v

/-- Line 3 of plot_plane: v2 = v2 / la.norm(v2). -/
noncomputable def plot_plane_v2 (v w : Vec3) : Vec3 :=
  (norm (plot_plane_v2pre v w))⁻¹ • plot_plane_v2pre v w

/-- Line 4 of plot_plane: ts = la.norm(v) * np.linspace(-0.2, 1.2). -/
noncomputable def plot_plane_ts (v : Vec3) : List ℝ :=
  (linspace (-0.2 : ℝ) 1.2 50).map (fun t => norm v * t)

/-- Line 5 of plot_plane: rs = la.norm(w) * np.linspace(-1.2, 1.2). -/
noncomputable def plot_plane_rs (w : Vec3) : List ℝ :=
  (linspace (-1.2 : ℝ) 1.2 50).map (fun r => norm w * r)

/-- np.meshgrid(ts, rs): a pair of len(rs) x len(ts) matrices, the first
repeating ts along every row, the second holding each r constant on its row. -/
def meshgrid {α : Type} (xs ys : List α) : List (List α) × List (List α) :=
  (ys.map (fun _ => xs), ys.map (fun r => xs.map (fun _ => r)))

/-- One coordinate plane of the patch: c1 * Ts + c2 * Rs elementwise, as in
Xs = v1[0] * Ts + v2[0] * Rs. -/
def gridComb (c1 c2 : ℝ) (Ts Rs : List (List ℝ)) : List (List ℝ) :=
  List.zipWith (fun tr rr => List.zipWith (fun t r => c1 * t + c2 * r) tr rr) Ts Rs

open scoped Classical in
/-- plot_plane(v, w) with its two divisions guarded: the source divides by
la.norm(v) and then by la.norm(v2); a zero divisor is a numeric fault that the
source neither checks nor catches, modelled here as the none result
propagating to the caller.  Away from the faults the computation is the
source's, line by line, through plot_plane_v1, plot_plane_v2pre,
plot_plane_v2, plot_plane_ts, plot_plane_rs, meshgrid and gridComb. -/
noncomputable def plot_planeChecked (v w : Vec3) :
    Option (List (List ℝ) × List (List ℝ) × List (List ℝ)) :=
  if norm v = 0 then none
  else if norm (plot_plane_v2pre v w) = 0 then none
  else some
    (gridComb (plot_plane_v1 v).x (plot_plane_v2 v w).x
      (meshgrid (plot_plane_ts v) (plot_plane_rs w)).1
      (meshgrid (plot_plane_ts v) (plot_plane_rs w)).2,
    gridComb (plot_plane_v1 v).y (plot_plane_v2 v w).y
      (meshgrid (plot_plane_ts v) (plot_plane_rs w)).1
      (meshgrid (plot_plane_ts v) (plot_plane_rs w)).2,
    gridComb (plot_plane_v1 v).z (plot_plane_v2 v w).z
      (meshgrid (plot_plane_ts v) (plot_plane_rs w)).1
      (meshgrid (plot_plane_ts v) (plot_plane_rs w)).2)

/-- Claim C2 reads both parameter axes as having 20 percent overshoot on each
side of the span; this is that reading for the w-direction axis. -/
noncomputable def specC2_rs (w : Vec3) : List ℝ :=
  (linspace (-0.2 : ℝ) 1.2 50).map (fun r => norm w * r)

/-- The segment a plot_vec call draws: the source plots the pair of points
[w, o] with w = v + o, the vector tip first and the base point second. -/
structure Seg3 where
  tip : Vec3
  base : Vec3

/-- plot_vec(v, o) from plot_vec3d.py; the source defaults o to np.zeros(3)
and plot_coeffs passes either nothing or an explicit keyword origin. -/
def plot_vec (v o : Vec3) : Seg3 := ⟨v + o, o⟩

/-- plot_coeffs(x, a0, a1) from plot_vec3d.py: the list of its four plot_vec
calls, in source order; the first two use the default origin np.zeros(3). -/
def plot_coeffs (x : ℝ × ℝ) (a0 a1 : Vec3) : List Seg3 :=
  [plot_vec (x.1 • a0) 0, plot_vec (x.2 • a1) 0,
    plot_vec (x.1 • a0) (x.2 • a1), plot_vec (x.2 • a1) (x.1 • a0)]

/-- Claim C4 reads the decomposition as based at an arbitrary origin: four
DrawVector calls with origins o, o, o + x1*a1, o + x0*a0. -/
def specC4_calls (x : ℝ × ℝ) (a0 a1 o : Vec3) : List Seg3 :=
  [plot_vec (x.1 • a0) o, plot_vec (x.2 • a1) o,
    plot_vec (x.1 • a0) (o + x.2 • a1), plot_vec (x.2 • a1) (o + x.1 • a0)]

theorem linspace_length {K : Type} [DivisionRing K] (a b : K) (n : ℕ) :
    (linspace a b n).length = n := by
  simp [linspace]

theorem linspace_getD {K : Type} [DivisionRing K] {a b : K} {n i : ℕ} (h : i < n) :
    (linspace a b n).getD i 0 = a + (b - a) * (i : K) / ((n : K) - 1) := by
  rw [linspace, List.getD_eq_getElem?_getD, List.getElem?_map, List.getElem?_range h]
  rfl

theorem mem_linspace01 {t : ℚ} (ht : t ∈ linspace (0 : ℚ) 1 50) : 0 ≤ t ∧ t ≤ 1 := by
  simp only [linspace, List.mem_map, List.mem_range] at ht
  obtain ⟨i, hi, rfl⟩ := ht
  have hv : (0 : ℚ) + (1 - 0) * (i : ℚ) / (((50 : ℕ) : ℚ) - 1) = (i : ℚ) / 49 := by
    push_cast
    norm_num
  rw [hv]
  constructor
  · positivity
  · rw [div_le_one (by norm_num : (0 : ℚ) < 49)]
    exact_mod_cast Nat.lt_succ_iff.mp hi

theorem matvec_length (m : List (List ℚ)) (u : List ℚ) :
    (matvec m u).length = m.length := by
  simp [matvec]

/-- Claim C1, amended: plot_cross_sec nudges each interpolated sample point by
the convex combination p' = (1 - s) * p + s * c with s = 10 * eps (ten times
the binary64 machine epsilon 2^-52), where the nudge target c is the sum of
all node coordinates divided by the constant 3 — equal to the mean of the
node coordinates only when the mesh has exactly three nodes, as the reference
domain does — and the x-component of that target is reused for both the x and
the y coordinate. -/
theorem claim1_amended (u : List ℚ) (pA pB : ℚ × ℚ) (basis : Basis) :
    (plot_cross_sec u pA pB basis).xs =
      ((linspace (0 : ℚ) 1 50).map (fun t => (1 - t) * pA.1 + t * pB.1)).map
        (fun p => (1 - 10 * eps) * p + 10 * eps * ((basis.mesh.p.map Prod.fst).sum / 3)) ∧
    (plot_cross_sec u pA pB basis).ys =
      ((linspace (0 : ℚ) 1 50).map (fun t => (1 - t) * pA.2 + t * pB.2)).map
        (fun p => (1 - 10 * eps) * p + 10 * eps * ((basis.mesh.p.map Prod.fst).sum / 3)) :=
  ⟨rfl, rfl⟩

/-- Claim C1, counterexample: on the four-node mesh mesh4 the sum of the node
x-coordinates is 6, so the code nudges toward 6 / 3 = 2 while the mean of the
node x-coordinates is 6 / 4; the first sample of the degenerate segment at the
node (0, 0) therefore differs from what the claim predicts. -/
theorem claim1_counterexample :
    ((plot_cross_sec [] (0, 0) (0, 0) basis4).xs)[0]? ≠
      some ((1 - 10 * eps) * 0 + 10 * eps * specC1_centroid_x basis4.mesh) := by
  have h0 : (0 : ℕ) < 50 := by norm_num
  simp only [plot_cross_sec, linspace, basis4, mesh4, specC1_centroid_x, eps,
    List.getElem?_map, List.getElem?_range h0, Option.map_some']
  intro h
  rw [Option.some_inj] at h
  norm_num at h

/-- Claim C3, confirmed: the sampled values zs returned by plot_cross_sec are
exactly the matrix-vector product of the probing operator evaluated at the
nudged sample points with the coefficient vector u, for every probing
operator: the function is a thin composition. -/
theorem claim3_thin_composition (u : List ℚ) (pA pB : ℚ × ℚ) (basis : Basis) :
    (plot_cross_sec u pA pB basis).zs =
      matvec (basis.probes
        ((plot_cross_sec u pA pB basis).xs.zip (plot_cross_sec u pA pB basis).ys)) u :=
  rfl

/-- Claim C6, confirmed: plot_cross_sec generates exactly 50 evenly spaced
parameter values in [0, 1] (consecutive differences all 1 / 49, every value
between 0 and 1) and, whenever the probing operator returns one matrix row per
sample point, each of the parallel sequences xs, ys, zs has exactly 50
entries, regardless of the endpoints. -/
theorem claim6_fifty_samples (u : List ℚ) (pA pB : ℚ × ℚ) (basis : Basis)
    (hp : ∀ q : List (ℚ × ℚ), (basis.probes q).length = q.length) :
    (plot_cross_sec u pA pB basis).ts.length = 50 ∧
    (∀ i : ℕ, i + 1 < 50 →
      (plot_cross_sec u pA pB basis).ts.getD (i + 1) 0 -
        (plot_cross_sec u pA pB basis).ts.getD i 0 = 1 / 49) ∧
    (∀ t ∈ (plot_cross_sec u pA pB basis).ts, 0 ≤ t ∧ t ≤ 1) ∧
    (plot_cross_sec u pA pB basis).xs.length = 50 ∧
    (plot_cross_sec u pA pB basis).ys.length = 50 ∧
    (plot_cross_sec u pA pB basis).zs.length = 50 := by
  refine ⟨?_, ?_, ?_, ?_, ?_, ?_⟩
  · simp [plot_cross_sec, linspace_length]
  · intro i hi
    show (linspace (0 : ℚ) 1 50).getD (i + 1) 0 - (linspace (0 : ℚ) 1 50).getD i 0 = 1 / 49
    rw [linspace_getD hi, linspace_getD (by omega : i < 50)]
    push_cast
    ring
  · intro t ht
    exact mem_linspace01 ht
  · simp [plot_cross_sec, linspace_length]
  · simp [plot_cross_sec, linspace_length]
  · simp [plot_cross_sec, matvec_length, hp, linspace_length]

/-- Claim C6, witness: the conclusion instantiated on the reference triangle
basis, a well-formed probing operator and the segment from (0,0) to (1,0). -/
theorem claim6_witness :
    (plot_cross_sec [] (0, 0) (1, 0) basisW).ts.length = 50 ∧
    (∀ i : ℕ, i + 1 < 50 →
      (plot_cross_sec [] (0, 0) (1, 0) basisW).ts.getD (i + 1) 0 -
        (plot_cross_sec [] (0, 0) (1, 0) basisW).ts.getD i 0 = 1 / 49) ∧
    (∀ t ∈ (plot_cross_sec [] (0, 0) (1, 0) basisW).ts, 0 ≤ t ∧ t ≤ 1) ∧
    (plot_cross_sec [] (0, 0) (1, 0) basisW).xs.length = 50 ∧
    (plot_cross_sec [] (0, 0) (1, 0) basisW).ys.length = 50 ∧
    (plot_cross_sec [] (0, 0) (1, 0) basisW).zs.length = 50 :=
  claim6_fifty_samples [] (0, 0) (1, 0) basisW (fun q => by simp [basisW])

/-- Claim C7, confirmed: plot_facet_vals invokes plot_cross_sec exactly once
per entry of the facet list (so duplicated entries would each be drawn: no
deduplication), in the list's native order, with endpoints the coordinates of
the facet's two nodes. -/
theorem claim7_once_per_facet (u : List ℚ) (basis : Basis) :
    (plot_facet_vals u basis).length = basis.mesh.facets.length ∧
    ∀ k : ℕ, k < basis.mesh.facets.length →
      (plot_facet_vals u basis).getD k ⟨[], [], [], [], [], []⟩ =
        plot_cross_sec u
          (basis.mesh.p.getD (basis.mesh.facets.getD k (0, 0)).1 (0, 0))
          (basis.mesh.p.getD (basis.mesh.facets.getD k (0, 0)).2 (0, 0)) basis := by
  constructor
  · simp [plot_facet_vals]
  · intro k hk
    have hk2 : k < (plot_facet_vals u basis).length := by
      simpa [plot_facet_vals] using hk
    rw [List.getD_eq_getElem _ _ hk2, List.getD_eq_getElem _ _ hk]
    simp [plot_facet_vals]

/-- Claim C7, witness: the per-facet call equation instantiated on the
reference triangle basis at its single facet (0, 1). -/
theorem claim7_witness :
    (plot_facet_vals [] basisW).getD 0 ⟨[], [], [], [], [], []⟩ =
      plot_cross_sec []
        (basisW.mesh.p.getD (basisW.mesh.facets.getD 0 (0, 0)).1 (0, 0))
        (basisW.mesh.p.getD (basisW.mesh.facets.getD 0 (0, 0)).2 (0, 0)) basisW :=
  (claim7_once_per_facet [] basisW).2 0 (by decide)

/-- Claim C9, confirmed: no sampling operation mutates the coefficient vector;
the array u as it stands after plot_cross_sec, after each cross-section call
issued by plot_facet_vals, and after plot_nodal_vals is the array that was
passed in. -/
theorem claim9_no_mutation (u : List ℚ) (pA pB : ℚ × ℚ) (basis : Basis) :
    (plot_cross_sec u pA pB basis).uFinal = u ∧
    (plot_facet_vals u basis).map (fun r => r.uFinal) =
      List.replicate basis.mesh.facets.length u ∧
    (plot_nodal_vals u basis).uFinal = u := by
  refine ⟨rfl, ?_, rfl⟩
  simp only [plot_facet_vals, List.map_map, Function.comp_def]
  exact List.map_const' basis.mesh.facets u

/-- Claim C10, confirmed: plot_nodal_vals probes the field at the exact,
unperturbed node coordinates of the mesh — no centroid nudge — and, whenever
the probing operator returns one row per point, produces one sampled value per
node in the mesh's native node order, as probe(mesh.p) @ u. -/
theorem claim10_nodal_unperturbed (u : List ℚ) (basis : Basis)
    (hp : ∀ q : List (ℚ × ℚ), (basis.probes q).length = q.length) :
    (plot_nodal_vals u basis).probedPoints = basis.mesh.p ∧
    (plot_nodal_vals u basis).zs = matvec (basis.probes basis.mesh.p) u ∧
    (plot_nodal_vals u basis).zs.length = basis.mesh.p.length ∧
    (plot_nodal_vals u basis).xs = basis.mesh.p.map Prod.fst ∧
    (plot_nodal_vals u basis).ys = basis.mesh.p.map Prod.snd := by
  refine ⟨rfl, rfl, ?_, rfl, rfl⟩
  simp [plot_nodal_vals, matvec_length, hp]

/-- Claim C10, witness: the conclusion instantiated on the reference triangle
basis with a probing operator returning one row per point. -/
theorem claim10_witness :
    (plot_nodal_vals [] basisW).probedPoints = basisW.mesh.p ∧
    (plot_nodal_vals [] basisW).zs = matvec (basisW.probes basisW.mesh.p) [] ∧
    (plot_nodal_vals [] basisW).zs.length = basisW.mesh.p.length ∧
    (plot_nodal_vals [] basisW).xs = basisW.mesh.p.map Prod.fst ∧
    (plot_nodal_vals [] basisW).ys = basisW.mesh.p.map Prod.snd :=
  claim10_nodal_unperturbed [] basisW (fun q => by simp [basisW])

@[simp] theorem zero_x : (0 : Vec3).x = 0 := rfl

@[simp] theorem zero_y : (0 : Vec3).y = 0 := rfl

@[simp] theorem zero_z : (0 : Vec3).z = 0 := rfl

@[simp] theorem add_x (a b : Vec3) : (a + b).x = a.x + b.x := rfl

@[simp] theorem add_y (a b : Vec3) : (a + b).y = a.y + b.y := rfl

@[simp] theorem add_z (a b : Vec3) : (a + b).z = a.z + b.z := rfl

@[simp] theorem sub_x (a b : Vec3) : (a - b).x = a.x - b.x :=
  (sub_eq_add_neg a.x b.x).symm

@[simp] theorem sub_y (a b : Vec3) : (a - b).y = a.y - b.y :=
  (sub_eq_add_neg a.y b.y).symm

@[simp] theorem sub_z (a b : Vec3) : (a - b).z = a.z - b.z :=
  (sub_eq_add_neg a.z b.z).symm

@[simp] theorem smul_x (c : ℝ) (a : Vec3) : (c • a).x = c * a.x := rfl

@[simp] theorem smul_y (c : ℝ) (a : Vec3) : (c • a).y = c * a.y := rfl

@[simp] theorem smul_z (c : ℝ) (a : Vec3) : (c • a).z = c * a.z := rfl

theorem dot_self_nonneg (v : Vec3) : 0 ≤ dot v v := by
  have h : dot v v = v.x ^ 2 + v.y ^ 2 + v.z ^ 2 := by rw [dot]; ring
  rw [h]
  positivity

theorem norm_nonneg_vec (v : Vec3) : 0 ≤ norm v := Real.sqrt_nonneg _

theorem norm_sq_eq (v : Vec3) : norm v ^ 2 = dot v v := Real.sq_sqrt (dot_self_nonneg v)

theorem dot_self_eq_zero_iff (v : Vec3) : dot v v = 0 ↔ v = 0 := by
  constructor
  · intro h
    have hd : v.x ^ 2 + v.y ^ 2 + v.z ^ 2 = 0 := by
      have he : dot v v = v.x ^ 2 + v.y ^ 2 + v.z ^ 2 := by rw [dot]; ring
      rw [← he, h]
    have hx : v.x = 0 := by nlinarith [sq_nonneg v.x, sq_nonneg v.y, sq_nonneg v.z]
    have hy : v.y = 0 := by nlinarith [sq_nonneg v.x, sq_nonneg v.y, sq_nonneg v.z]
    have hz : v.z = 0 := by nlinarith [sq_nonneg v.x, sq_nonneg v.y, sq_nonneg v.z]
    exact Vec3.ext hx hy hz
  · rintro rfl
    simp [dot]

theorem norm_eq_zero_iff (v : Vec3) : norm v = 0 ↔ v = 0 := by
  rw [norm, Real.sqrt_eq_zero (dot_self_nonneg v), dot_self_eq_zero_iff]

theorem norm_smul_vec (c : ℝ) (v : Vec3) : norm (c • v) = |c| * norm v := by
  rw [norm, norm]
  have h : dot (c • v) (c • v) = c ^ 2 * dot v v := by
    simp only [dot, smul_x, smul_y, smul_z]
    ring
  rw [h, Real.sqrt_mul (sq_nonneg c), Real.sqrt_sq_eq_abs]

theorem dot_comm (a b : Vec3) : dot a b = dot b a := by
  simp only [dot]
  ring

theorem dot_sub_right (a b c : Vec3) : dot a (b - c) = dot a b - dot a c := by
  simp only [dot, sub_x, sub_y, sub_z]
  ring

theorem dot_smul_right (c : ℝ) (a b : Vec3) : dot a (c • b) = c * dot a b := by
  simp only [dot, smul_x, smul_y, smul_z]
  ring

/-- Claim C5, confirmed: for non-zero v and w linearly independent of v, the
in-plane basis produced by the Gram-Schmidt lines of plot_plane is
orthonormal. -/
theorem claim5_orthonormal (v w : Vec3) (hv : v ≠ 0) (hw : ∀ c : ℝ, w ≠ c • v) :
    norm (plot_plane_v1 v) = 1 ∧ norm (plot_plane_v2 v w) = 1 ∧
    dot (plot_plane_v1 v) (plot_plane_v2 v w) = 0 := by
  have hnv : norm v ≠ 0 := fun h => hv ((norm_eq_zero_iff v).mp h)
  have h1 : norm (plot_plane_v1 v) = 1 := by
    rw [plot_plane_v1, norm_smul_vec, abs_of_nonneg (inv_nonneg.mpr (norm_nonneg_vec v)),
      inv_mul_cancel₀ hnv]
  have hpre : plot_plane_v2pre v w ≠ 0 := by
    intro h0
    rw [plot_plane_v2pre] at h0
    have hwe : w = dot w (plot_plane_v1 v) • plot_plane_v1 v := sub_eq_zero.mp h0
    refine hw (dot w (plot_plane_v1 v) * (norm v)⁻¹) ?_
    conv_lhs => rw [hwe]
    rw [plot_plane_v1]
    ext <;> simp only [smul_x, smul_y, smul_z] <;> ring
  have hn2 : norm (plot_plane_v2pre v w) ≠ 0 := fun h => hpre ((norm_eq_zero_iff _).mp h)
  have h2 : norm (plot_plane_v2 v w) = 1 := by
    rw [plot_plane_v2, norm_smul_vec, abs_of_nonneg (inv_nonneg.mpr (norm_nonneg_vec _)),
      inv_mul_cancel₀ hn2]
  have hd11 : dot (plot_plane_v1 v) (plot_plane_v1 v) = 1 := by
    have h := norm_sq_eq (plot_plane_v1 v)
    rw [h1] at h
    simpa using h.symm
  have hd0 : dot (plot_plane_v1 v) (plot_plane_v2pre v w) = 0 := by
    rw [plot_plane_v2pre, dot_sub_right, dot_smul_right, hd11, dot_comm]
    ring
  refine ⟨h1, h2, ?_⟩
  rw [plot_plane_v2, dot_smul_right, hd0, mul_zero]

/-- Claim C5, witness: the orthonormality conclusion at the concrete
independent pair (1,0,0), (0,1,0). -/
theorem claim5_witness :
    norm (plot_plane_v1 ⟨1, 0, 0⟩) = 1 ∧ norm (plot_plane_v2 ⟨1, 0, 0⟩ ⟨0, 1, 0⟩) = 1 ∧
    dot (plot_plane_v1 ⟨1, 0, 0⟩) (plot_plane_v2 ⟨1, 0, 0⟩ ⟨0, 1, 0⟩) = 0 :=
  claim5_orthonormal ⟨1, 0, 0⟩ ⟨0, 1, 0⟩
    (fun h => by
      have hx := congrArg Vec3.x h
      rw [zero_x] at hx
      norm_num at hx)
    (fun c h => by
      have hy := congrArg Vec3.y h
      rw [smul_y] at hy
      norm_num at hy)

/-- Claim C2, amended: plot_plane builds its parameter grid at a fixed 50 x 50
resolution, the v-direction axis being the norm of v times linspace(-0.2, 1.2)
— 20 percent overshoot beyond the span on each side — but the w-direction axis
being the norm of w times linspace(-1.2, 1.2): 120 percent overshoot below the
span and 20 percent above it, not 20 percent on each side. -/
theorem claim2_amended (v w : Vec3) :
    plot_plane_ts v = (linspace (-0.2 : ℝ) 1.2 50).map (fun t => norm v * t) ∧
    plot_plane_rs w = (linspace (-1.2 : ℝ) 1.2 50).map (fun r => norm w * r) ∧
    (plot_plane_ts v).length = 50 ∧
    (plot_plane_rs w).length = 50 ∧
    (meshgrid (plot_plane_ts v) (plot_plane_rs w)).1.length = 50 ∧
    (meshgrid (plot_plane_ts v) (plot_plane_rs w)).1.map List.length =
      List.replicate 50 50 ∧
    (meshgrid (plot_plane_ts v) (plot_plane_rs w)).2.length = 50 ∧
    (meshgrid (plot_plane_ts v) (plot_plane_rs w)).2.map List.length =
      List.replicate 50 50 ∧
    (plot_plane_ts v)[0]? = some (norm v * (-0.2)) ∧
    (plot_plane_ts v)[49]? = some (norm v * 1.2) ∧
    (plot_plane_rs w)[0]? = some (norm w * (-1.2)) ∧
    (plot_plane_rs w)[49]? = some (norm w * 1.2) := by
  have h0 : (0 : ℕ) < 50 := by norm_num
  have h49 : (49 : ℕ) < 50 := by norm_num
  refine ⟨rfl, rfl, ?_, ?_, ?_, ?_, ?_, ?_, ?_, ?_, ?_, ?_⟩
  · simp [plot_plane_ts, linspace_length]
  · simp [plot_plane_rs, linspace_length]
  · simp [meshgrid, plot_plane_rs, linspace_length]
  · simp [meshgrid, plot_plane_ts, plot_plane_rs, List.map_map, Function.comp_def,
      linspace_length, linspace]
  · simp [meshgrid, plot_plane_rs, linspace_length]
  · simp [meshgrid, plot_plane_ts, plot_plane_rs, List.map_map, Function.comp_def,
      linspace_length, linspace]
  · simp only [plot_plane_ts, linspace, List.getElem?_map, List.getElem?_range h0,
      Option.map_some']
    norm_num
  · simp only [plot_plane_ts, linspace, List.getElem?_map, List.getElem?_range h49,
      Option.map_some']
    norm_num
  · simp only [plot_plane_rs, linspace, List.getElem?_map, List.getElem?_range h0,
      Option.map_some']
    norm_num
  · simp only [plot_plane_rs, linspace, List.getElem?_map, List.getElem?_range h49,
      Option.map_some']
    norm_num

/-- Claim C2, counterexample: for the unit vector w = (0,1,0) the w-direction
parameter axis of plot_plane starts at -1.2 times the norm of w, not at the
-0.2 times it that a 20 percent overshoot on each side would give. -/
theorem claim2_counterexample : plot_plane_rs ⟨0, 1, 0⟩ ≠ specC2_rs ⟨0, 1, 0⟩ := by
  intro h
  have hn : norm (⟨0, 1, 0⟩ : Vec3) = 1 := by
    have hd : dot ⟨0, 1, 0⟩ ⟨0, 1, 0⟩ = 1 := by
      rw [dot]
      norm_num
    rw [norm, hd, Real.sqrt_one]
  have h0 := congrArg (fun l : List ℝ => l[0]?) h
  simp only [plot_plane_rs, specC2_rs, linspace, List.getElem?_map,
    List.getElem?_range (show (0 : ℕ) < 50 by norm_num), Option.map_some', hn] at h0
  rw [Option.some_inj] at h0
  norm_num at h0

/-- Claim C4, counterexample: plot_coeffs accepts no origin argument; its
first drawn vector is always based at the zero vector, so for the origin
(1,0,0) the four calls are not those the claim describes. -/
theorem claim4_counterexample :
    plot_coeffs (1, 1) ⟨1, 0, 0⟩ ⟨0, 1, 0⟩ ≠
      specC4_calls (1, 1) ⟨1, 0, 0⟩ ⟨0, 1, 0⟩ ⟨1, 0, 0⟩ := by
  intro h
  have h0 : ((plot_coeffs (1, 1) ⟨1, 0, 0⟩ ⟨0, 1, 0⟩).getD 0 ⟨0, 0⟩).base =
      ((specC4_calls (1, 1) ⟨1, 0, 0⟩ ⟨0, 1, 0⟩ ⟨1, 0, 0⟩).getD 0 ⟨0, 0⟩).base := by
    rw [h]
  have hx : (0 : ℝ) = 1 := congrArg Vec3.x h0
  norm_num at hx

/-- Claim C4, amended: plot_coeffs takes no origin; with the origin fixed at
the zero vector it issues exactly four plot_vec calls drawing x0*a0 and x1*a1
with origins 0, 0, x1*a1, x0*a0 respectively, and traced tip-to-tail the four
vectors close a parallelogram whose far corner — the tip of each closing side
— equals x0*a0 + x1*a1. -/
theorem claim4_amended (x : ℝ × ℝ) (a0 a1 : Vec3) :
    plot_coeffs x a0 a1 = specC4_calls x a0 a1 0 ∧
    (plot_coeffs x a0 a1).length = 4 ∧
    ((plot_coeffs x a0 a1).getD 2 ⟨0, 0⟩).tip = x.1 • a0 + x.2 • a1 ∧
    ((plot_coeffs x a0 a1).getD 3 ⟨0, 0⟩).tip = x.1 • a0 + x.2 • a1 := by
  refine ⟨?_, rfl, rfl, ?_⟩
  · simp [plot_coeffs, specC4_calls, plot_vec, zero_add]
  · show x.2 • a1 + x.1 • a0 = x.1 • a0 + x.2 • a1
    exact add_comm _ _

theorem v2pre_parallel (c : ℝ) (v : Vec3) (hv : norm v ≠ 0) :
    plot_plane_v2pre v (c • v) = 0 := by
  have hS : norm v ^ 2 = dot v v := norm_sq_eq v
  have hd : dot (c • v) (plot_plane_v1 v) = c * norm v := by
    rw [plot_plane_v1]
    have hexp : dot (c • v) ((norm v)⁻¹ • v) = c * (norm v)⁻¹ * dot v v := by
      simp only [dot, smul_x, smul_y, smul_z]
      ring
    rw [hexp, ← hS]
    field_simp
    ring
  rw [plot_plane_v2pre, hd, plot_plane_v1]
  ext <;>
    simp only [sub_x, sub_y, sub_z, smul_x, smul_y, smul_z, zero_x, zero_y, zero_z] <;>
    field_simp <;>
    ring

/-- Claim C8, confirmed: called with v zero, w zero, or w parallel to v, the
plot_plane computation runs into a division by an exactly zero norm — either
the norm of v or the norm of the post-projection v2 — which the source never
checks or catches; in the guarded model the fault propagates to the caller as
the none result. -/
theorem claim8_degenerate_fault (v w : Vec3)
    (h : v = 0 ∨ w = 0 ∨ ∃ c : ℝ, w = c • v) :
    plot_planeChecked v w = none := by
  by_cases hv : norm v = 0
  · rw [plot_planeChecked, if_pos hv]
  · rcases h with h0 | h0 | ⟨c, hc⟩
    · exact absurd ((norm_eq_zero_iff v).mpr h0) hv
    · have hzero : w = (0 : ℝ) • v := by
        rw [h0]
        ext <;> simp
      have h2 : plot_plane_v2pre v w = 0 := by
        rw [hzero]
        exact v2pre_parallel 0 v hv
      rw [plot_planeChecked, if_neg hv, if_pos ((norm_eq_zero_iff _).mpr h2)]
    · have h2 : plot_plane_v2pre v w = 0 := by
        rw [hc]
        exact v2pre_parallel c v hv
      rw [plot_planeChecked, if_neg hv, if_pos ((norm_eq_zero_iff _).mpr h2)]

/-- Claim C8, witness: the fault at the concrete parallel pair (1,0,0) and
(2,0,0). -/
theorem claim8_witness : plot_planeChecked ⟨1, 0, 0⟩ ⟨2, 0, 0⟩ = none :=
  claim8_degenerate_fault ⟨1, 0, 0⟩ ⟨2, 0, 0⟩
    (Or.inr (Or.inr ⟨2, by ext <;> norm_num [smul_x, smul_y, smul_z]⟩))

end Plot
